import Mathlib

/-!
Verification of the core data-transformation layer of the TSLA dashboard
(`app.py`): the row parser (`parse_list` inside `load_data`), the series
builder (`prepare_chart_data`), and the chat entry point (`gemini_chat`).
Python values produced by `ast.literal_eval` are embedded as `PyVal`;
raw table cells (which may be missing/NaN) as `Cell`; a raised Python
exception is embedded as the `Except.error` branch.
-/

/-- A Python value as produced by `ast.literal_eval` on the data's cells.
Numbers (int and float) are embedded as rationals. The `list` constructor
carries arbitrary nested values, as the decoder can produce. -/
inductive PyVal where
  | pynone : PyVal
  | bool (b : Bool) : PyVal
  | num (q : ℚ) : PyVal
  | str (s : String) : PyVal
  | list (xs : List PyVal) : PyVal

/-- A raw table cell: either missing (pandas NaN, `pd.notnull` false) or a
string read from the CSV. -/
inductive Cell where
  | null : Cell
  | str (s : String) : Cell
deriving DecidableEq

/-- Skip space characters, as the Python literal grammar permits around
tokens. -/
def skipWs : List Char → List Char
  | c :: cs => if c = ' ' then skipWs cs else c :: cs
  | [] => []

/-- Consume a maximal run of decimal digits. -/
def takeDigits : List Char → (List Char × List Char)
  | c :: cs =>
    if c.isDigit then
      let (ds, rest) := takeDigits cs
      (c :: ds, rest)
    else ([], c :: cs)
  | [] => ([], [])

/-- Value of a run of decimal digits. -/
def digitsToNat (ds : List Char) : Nat :=
  ds.foldl (fun acc c => 10 * acc + (c.toNat - '0'.toNat)) 0

/-- Parse a numeric literal (optional minus sign, integer part, optional
fractional part), returning its rational value and the remaining input.
The value of `d.f` (with `k` fractional digits) is `(d * 10^k + f) / 10^k`. -/
def parseNum (cs : List Char) : Option (ℚ × List Char) :=
  let p : Bool × List Char :=
    match cs with
    | '-' :: rest => (true, rest)
    | _ => (false, cs)
  let neg := p.1
  let (ds, cs2) := takeDigits p.2
  if ds.isEmpty then none
  else
    match cs2 with
    | '.' :: cs3 =>
      let (fs, cs4) := takeDigits cs3
      if fs.isEmpty then none
      else
        let n : Nat := digitsToNat ds * 10 ^ fs.length + digitsToNat fs
        let num : Int := if neg then -(n : Int) else (n : Int)
        some (mkRat num (10 ^ fs.length), cs4)
    | _ =>
      let num : Int := if neg then -(digitsToNat ds : Int) else (digitsToNat ds : Int)
      some (mkRat num 1, cs2)

mutual
/-- One literal: `None`, `True`, `False`, a number, or a list literal.
Models the fragment of Python's literal grammar the data uses; other
literal forms are outside the modelled domain and fail. Fuel bounds the
recursion depth; `literal_eval` supplies enough for its input. -/
def parseVal : Nat → List Char → Option (PyVal × List Char)
  | 0, _ => none
  | fuel + 1, cs =>
    match skipWs cs with
    | 'N' :: 'o' :: 'n' :: 'e' :: rest => some (PyVal.pynone, rest)
    | 'T' :: 'r' :: 'u' :: 'e' :: rest => some (PyVal.bool true, rest)
    | 'F' :: 'a' :: 'l' :: 's' :: 'e' :: rest => some (PyVal.bool false, rest)
    | '[' :: rest =>
      match skipWs rest with
      | ']' :: rest2 => some (PyVal.list [], rest2)
      | rest2 =>
        match parseItems fuel rest2 with
        | some (vs, rest3) => some (PyVal.list vs, rest3)
        | none => none
    | other =>
      match parseNum other with
      | some (q, rest) => some (PyVal.num q, rest)
      | none => none

/-- Comma-separated literals up to a closing bracket. -/
def parseItems : Nat → List Char → Option (List PyVal × List Char)
  | 0, _ => none
  | fuel + 1, cs =>
    match parseVal fuel cs with
    | none => none
    | some (v, cs1) =>
      match skipWs cs1 with
      | ',' :: cs2 =>
        match parseItems fuel cs2 with
        | some (vs, cs3) => some (v :: vs, cs3)
        | none => none
      | ']' :: cs2 => some ([v], cs2)
      | _ => none
end

/-- Models `ast.literal_eval` on the literal fragment above: decode the
whole string (trailing spaces allowed) or fail. -/
def literal_eval (s : String) : Option PyVal :=
  match parseVal (s.length + 1) s.data with
  | some (v, rest) => if skipWs rest = [] then some v else none
  | none => none

/-- `parse_list` from `load_data`: missing or empty cells give `[]`, any
decoding failure gives `[]`, and a successful decode is returned as-is
(even when it is not a list). Total: the Python `except` catches every
exception. -/
def parse_list (val : Cell) : PyVal :=
  match val with
  | Cell.null => PyVal.list []
  | Cell.str s =>
    if s = "" then PyVal.list []
    else
      match literal_eval s with
      | some v => v
      | none => PyVal.list []

/-- Python truthiness of a parsed value, as used by the conditional
expressions `if row['Support']` in `prepare_chart_data`: `None`, `False`,
`0`, the empty string and the empty list are falsy. -/
def pyTruthy : PyVal → Bool
  | PyVal.pynone => false
  | PyVal.bool b => b
  | PyVal.num q => decide (q ≠ 0)
  | PyVal.str s => decide (s ≠ "")
  | PyVal.list xs => !xs.isEmpty

/-- Extract the rationals of a list of parsed values; fails when some
element is not a number. -/
def toNums : List PyVal → Option (List ℚ)
  | [] => some []
  | PyVal.num q :: rest =>
    match toNums rest with
    | some l => some (q :: l)
    | none => none
  | _ => none

/-- Models Python's builtin `min` applied to a parsed cell value, as
`prepare_chart_data` does: defined on nonempty lists of numbers; any other
argument — in particular a bare number, which is not iterable — raises a
`TypeError`, embedded as the error branch. -/
def pyMin (v : PyVal) : Except String ℚ :=
  match v with
  | PyVal.list xs =>
    match toNums xs with
    | some (x :: rest) => Except.ok (rest.foldl min x)
    | _ => Except.error "TypeError"
  | _ => Except.error "TypeError"

/-- Models Python's builtin `max` applied to a parsed cell value; same
domain as `pyMin`. -/
def pyMax (v : PyVal) : Except String ℚ :=
  match v with
  | PyVal.list xs =>
    match toNums xs with
    | some (x :: rest) => Except.ok (rest.foldl max x)
    | _ => Except.error "TypeError"
  | _ => Except.error "TypeError"

/-- A parsed row of the table handed to `prepare_chart_data`: the
`Support` and `Resistance` cells already went through `parse_list`.
`open` is a Lean keyword, hence the field name `open_`. -/
structure Row where
  timestamp : String
  open_ : ℚ
  high : ℚ
  low : ℚ
  close : ℚ
  volume : ℚ
  direction : Cell
  Support : PyVal
  Resistance : PyVal

/-- A raw row as read from the CSV, before `load_data` parses the two
level columns. -/
structure RawRow where
  timestamp : String
  open_ : ℚ
  high : ℚ
  low : ℚ
  close : ℚ
  volume : ℚ
  direction : Cell
  Support : Cell
  Resistance : Cell

/-- The column-normalisation step of `load_data`: apply `parse_list` to
the `Support` and `Resistance` cells of a row. -/
def parseRow (r : RawRow) : Row :=
  ⟨r.timestamp, r.open_, r.high, r.low, r.close, r.volume, r.direction,
    parse_list r.Support, parse_list r.Resistance⟩

/-- `load_data` (modulo the CSV reading itself): parse the `Support` and
`Resistance` columns of every row. -/
def load_data (rows : List RawRow) : List Row :=
  rows.map parseRow

/-- One element of the `candles` list built by `prepare_chart_data`. -/
structure Candle where
  time : String
  open_ : ℚ
  high : ℚ
  low : ℚ
  close : ℚ
deriving DecidableEq

/-- One element of the `markers` list built by `prepare_chart_data`. -/
structure Marker where
  time : String
  position : String
  color : String
  shape : String
  text : String
deriving DecidableEq

/-- One point of a band line series: `value` is `Option` because the
Python code stores `None` there for an empty level list. -/
structure BandPoint where
  time : String
  value : Option ℚ
  color : String
deriving DecidableEq

/-- The six sequences returned by `prepare_chart_data`, in the order of
the Python return tuple. -/
structure ChartData where
  candles : List Candle
  markers : List Marker
  support_band : List BandPoint
  support_band_upper : List BandPoint
  resistance_band : List BandPoint
  resistance_band_upper : List BandPoint
deriving DecidableEq

/-- Python `==` between a possibly-missing cell and a string literal:
a NaN cell compares unequal to every string. -/
def direq (c : Cell) (s : String) : Bool :=
  match c with
  | Cell.null => false
  | Cell.str t => decide (t = s)

/-- The candle built from one row (the dictionary in the `candles`
comprehension of `prepare_chart_data`). -/
def candleOf (r : Row) : Candle :=
  ⟨r.timestamp, r.open_, r.high, r.low, r.close⟩

/-- The marker appended for one row by the `if/elif/else` in
`prepare_chart_data`. -/
def markerOf (r : Row) : Marker :=
  if direq r.direction "LONG" then
    ⟨r.timestamp, "belowBar", "green", "arrowUp", "LONG"⟩
  else if direq r.direction "SHORT" then
    ⟨r.timestamp, "aboveBar", "red", "arrowDown", "SHORT"⟩
  else
    ⟨r.timestamp, "aboveBar", "yellow", "circle", "NONE"⟩

/-- The conditional expression `min(row['Support']) if row['Support']
else None` (and its three siblings): reducer applied when the parsed
value is truthy, `None` otherwise; an exception from the reducer
propagates. -/
def bandValue (reducer : PyVal → Except String ℚ) (v : PyVal) :
    Except String (Option ℚ) :=
  if pyTruthy v then
    match reducer v with
    | Except.ok q => Except.ok (some q)
    | Except.error e => Except.error e
  else Except.ok none

/-- Effectful map over a list, stopping at the first error — the
evaluation order of a Python list comprehension whose body may raise. -/
def mapExcept (f : α → Except ε β) : List α → Except ε (List β)
  | [] => Except.ok []
  | a :: as =>
    match f a with
    | Except.error e => Except.error e
    | Except.ok b =>
      match mapExcept f as with
      | Except.error e => Except.error e
      | Except.ok bs => Except.ok (b :: bs)

/-- The band point built from one row: the row's timestamp, the reduced
value and the series' fixed color; a reducer exception propagates. -/
def bandPointOf (reducer : PyVal → Except String ℚ) (proj : Row → PyVal)
    (color : String) (row : Row) : Except String BandPoint :=
  match bandValue reducer (proj row) with
  | Except.ok v => Except.ok (BandPoint.mk row.timestamp v color)
  | Except.error e => Except.error e

/-- One band comprehension of `prepare_chart_data`: a point per row. -/
def bandSeries (reducer : PyVal → Except String ℚ) (proj : Row → PyVal)
    (color : String) (rows : List Row) : Except String (List BandPoint) :=
  mapExcept (bandPointOf reducer proj color) rows

/-- The fill color of the two support band series in the source. -/
def supportColor : String := "rgba(0,255,0,0.2)"

/-- The fill color of the two resistance band series in the source. -/
def resistColor : String := "rgba(255,0,0,0.2)"

/-- `prepare_chart_data`: builds the six sequences in the source's
order (candles, markers, support lower, support upper, resistance lower,
resistance upper); the first exception raised by a band comprehension
aborts the call. -/
def prepare_chart_data (rows : List Row) : Except String ChartData :=
  let candles := rows.map candleOf
  let markers := rows.map markerOf
  match bandSeries pyMin Row.Support supportColor rows with
  | Except.error e => Except.error e
  | Except.ok support_band =>
    match bandSeries pyMax Row.Support supportColor rows with
    | Except.error e => Except.error e
    | Except.ok support_band_upper =>
      match bandSeries pyMin Row.Resistance resistColor rows with
      | Except.error e => Except.error e
      | Except.ok resistance_band =>
        match bandSeries pyMax Row.Resistance resistColor rows with
        | Except.error e => Except.error e
        | Except.ok resistance_band_upper =>
          Except.ok ⟨candles, markers, support_band, support_band_upper,
            resistance_band, resistance_band_upper⟩

/-- Outcome of `gemini_chat` short of the external network call: either
the literal fallback string returned without contacting the model, or a
call to the model whose prompt is built from the table's first row and
the user's question. -/
inductive ChatResult where
  | fallback (msg : String) : ChatResult
  | modelCall (exampleRow : Row) (question : String) : ChatResult

/-- Python truthiness of the `api_key` variable: `None` (name not set
anywhere) and the empty string are falsy. -/
def keyTruthy : Option String → Bool
  | none => false
  | some s => decide (s ≠ "")

/-- `gemini_chat`: the key is looked up in the secrets store first, else
the environment; a falsy key returns the literal fallback message before
any model interaction; otherwise the prompt is built from `df.iloc[0]`,
which raises `IndexError` on an empty table. -/
def gemini_chat (secrets env : Option String) (question : String)
    (df : List Row) : Except String ChatResult :=
  let api_key : Option String :=
    match secrets with
    | some v => some v
    | none => env
  if keyTruthy api_key = false then
    Except.ok (ChatResult.fallback
      "Gemini API key not found. Please set it in Streamlit secrets or as an environment variable.")
  else
    match df with
    | r :: _ => Except.ok (ChatResult.modelCall r question)
    | [] => Except.error "IndexError"

/-- Whether an `Except` computation succeeded — whether the embedded
Python code returned instead of raising. -/
def exceptOk : Except ε α → Bool
  | Except.ok _ => true
  | Except.error _ => false

/-- A parsed cell value on which the band conditional expressions cannot
raise: either falsy (the reducer is not called) or a list of numbers
(the reducer succeeds). -/
def bandSafe (v : PyVal) : Bool :=
  !pyTruthy v ||
    (match v with
     | PyVal.list xs => (toNums xs).isSome
     | _ => false)

theorem exceptOk_iff_ok {x : Except ε α} :
    exceptOk x = true ↔ ∃ y, x = Except.ok y := by
  cases x with
  | ok y => simp [exceptOk]
  | error e => simp [exceptOk]

theorem mapExcept_ok_length {f : α → Except ε β} :
    ∀ {l : List α} {out : List β},
      mapExcept f l = Except.ok out → out.length = l.length := by
  intro l
  induction l with
  | nil =>
    intro out h
    unfold mapExcept at h
    injection h with h
    rw [← h]
    rfl
  | cons a as ih =>
    intro out h
    unfold mapExcept at h
    cases hfa : f a with
    | error e => rw [hfa] at h; cases h
    | ok b =>
      rw [hfa] at h
      cases hrest : mapExcept f as with
      | error e => rw [hrest] at h; cases h
      | ok bs =>
        rw [hrest] at h
        injection h with h
        rw [← h]
        simp [ih hrest]

theorem mapExcept_ok_getElem? {f : α → Except ε β} :
    ∀ {l : List α} {out : List β} (i : Nat) {a : α},
      mapExcept f l = Except.ok out → l[i]? = some a →
      ∃ b, out[i]? = some b ∧ f a = Except.ok b := by
  intro l
  induction l with
  | nil => intro out i a _ ha; simp at ha
  | cons x xs ih =>
    intro out i a h ha
    unfold mapExcept at h
    cases hfx : f x with
    | error e => rw [hfx] at h; cases h
    | ok b =>
      rw [hfx] at h
      cases hrest : mapExcept f xs with
      | error e => rw [hrest] at h; cases h
      | ok bs =>
        rw [hrest] at h
        injection h with h
        cases i with
        | zero =>
          simp at ha
          rw [← h, ← ha]
          exact ⟨b, by simp, hfx⟩
        | succ j =>
          simp at ha
          obtain ⟨c, hc, hfc⟩ := ih j hrest ha
          exact ⟨c, by rw [← h]; simpa using hc, hfc⟩

theorem mapExcept_ok_getElem?_src {f : α → Except ε β} :
    ∀ {l : List α} {out : List β} (i : Nat) {b : β},
      mapExcept f l = Except.ok out → out[i]? = some b →
      ∃ a, l[i]? = some a ∧ f a = Except.ok b := by
  intro l
  induction l with
  | nil =>
    intro out i b h hb
    unfold mapExcept at h
    injection h with h
    rw [← h] at hb
    simp at hb
  | cons x xs ih =>
    intro out i b h hb
    unfold mapExcept at h
    cases hfx : f x with
    | error e => rw [hfx] at h; cases h
    | ok c =>
      rw [hfx] at h
      cases hrest : mapExcept f xs with
      | error e => rw [hrest] at h; cases h
      | ok bs =>
        rw [hrest] at h
        injection h with h
        rw [← h] at hb
        cases i with
        | zero =>
          simp at hb
          exact ⟨x, by simp, by rw [hfx, hb]⟩
        | succ j =>
          simp at hb
          obtain ⟨a, ha, hfa⟩ := ih j hrest hb
          exact ⟨a, by simpa using ha, hfa⟩

theorem mapExcept_ok_map {f : α → Except ε β} {g : β → γ} {h : α → γ}
    (hgh : ∀ a b, f a = Except.ok b → g b = h a) :
    ∀ {l : List α} {out : List β},
      mapExcept f l = Except.ok out → out.map g = l.map h := by
  intro l
  induction l with
  | nil =>
    intro out hm
    unfold mapExcept at hm
    injection hm with hm
    rw [← hm]
    rfl
  | cons x xs ih =>
    intro out hm
    unfold mapExcept at hm
    cases hfx : f x with
    | error e => rw [hfx] at hm; cases hm
    | ok b =>
      rw [hfx] at hm
      cases hrest : mapExcept f xs with
      | error e => rw [hrest] at hm; cases hm
      | ok bs =>
        rw [hrest] at hm
        injection hm with hm
        rw [← hm]
        simp [List.map, hgh x b hfx, ih hrest]

theorem mapExcept_ok_of_all_ok {f : α → Except ε β} :
    ∀ {l : List α}, (∀ a ∈ l, exceptOk (f a) = true) →
      exceptOk (mapExcept f l) = true := by
  intro l
  induction l with
  | nil => intro _; rfl
  | cons x xs ih =>
    intro hall
    have hx := hall x (by simp)
    obtain ⟨b, hb⟩ := exceptOk_iff_ok.mp hx
    have hxs := ih (fun a ha => hall a (by simp [ha]))
    obtain ⟨bs, hbs⟩ := exceptOk_iff_ok.mp hxs
    unfold mapExcept
    rw [hb, hbs]
    rfl

theorem bandValue_falsy {red : PyVal → Except String ℚ} {v : PyVal}
    (h : pyTruthy v = false) : bandValue red v = Except.ok none := by
  simp [bandValue, h]

theorem bandValue_ok_some {red : PyVal → Except String ℚ} {v : PyVal} {q : ℚ}
    (h : bandValue red v = Except.ok (some q)) :
    pyTruthy v = true ∧ red v = Except.ok q := by
  unfold bandValue at h
  by_cases ht : pyTruthy v
  · rw [if_pos ht] at h
    cases hr : red v with
    | error e => rw [hr] at h; cases h
    | ok w =>
      rw [hr] at h
      injection h with h
      injection h with h
      subst h
      exact ⟨ht, rfl⟩
  · rw [if_neg ht] at h
    injection h with h
    cases h

theorem bandPointOf_ok {red : PyVal → Except String ℚ} {proj : Row → PyVal}
    {color : String} {r : Row} {p : BandPoint}
    (h : bandPointOf red proj color r = Except.ok p) :
    p.time = r.timestamp ∧ p.color = color ∧
      bandValue red (proj r) = Except.ok p.value := by
  unfold bandPointOf at h
  cases hv : bandValue red (proj r) with
  | error e => rw [hv] at h; cases h
  | ok v =>
    rw [hv] at h
    injection h with h
    rw [← h]
    exact ⟨rfl, rfl, rfl⟩

theorem exceptOk_bandPointOf {red : PyVal → Except String ℚ}
    {proj : Row → PyVal} {color : String} {r : Row} :
    exceptOk (bandPointOf red proj color r) =
      exceptOk (bandValue red (proj r)) := by
  unfold bandPointOf
  cases hv : bandValue red (proj r) <;> rfl

theorem foldl_min_le_foldl_max :
    ∀ (t : List ℚ) (x y : ℚ), x ≤ y → t.foldl min x ≤ t.foldl max y := by
  intro t
  induction t with
  | nil => intro x y h; simpa using h
  | cons c rest ih =>
    intro x y _
    simp only [List.foldl]
    exact ih (min x c) (max y c) (le_trans (min_le_right x c) (le_max_right y c))

theorem pyMin_le_pyMax {v : PyVal} {a b : ℚ}
    (ha : pyMin v = Except.ok a) (hb : pyMax v = Except.ok b) : a ≤ b := by
  cases v with
  | list xs =>
    simp only [pyMin] at ha
    simp only [pyMax] at hb
    cases hn : toNums xs with
    | none => rw [hn] at ha; cases ha
    | some l =>
      rw [hn] at ha hb
      cases l with
      | nil => cases ha
      | cons x rest =>
        injection ha with ha
        injection hb with hb
        rw [← ha, ← hb]
        exact foldl_min_le_foldl_max rest x x le_rfl
  | pynone => simp only [pyMin] at ha; cases ha
  | bool c => simp only [pyMin] at ha; cases ha
  | num q => simp only [pyMin] at ha; cases ha
  | str s => simp only [pyMin] at ha; cases ha

theorem prepare_chart_data_ok_parts {rows : List Row} {out : ChartData}
    (hok : prepare_chart_data rows = Except.ok out) :
    out.candles = rows.map candleOf ∧
    out.markers = rows.map markerOf ∧
    bandSeries pyMin Row.Support supportColor rows = Except.ok out.support_band ∧
    bandSeries pyMax Row.Support supportColor rows = Except.ok out.support_band_upper ∧
    bandSeries pyMin Row.Resistance resistColor rows = Except.ok out.resistance_band ∧
    bandSeries pyMax Row.Resistance resistColor rows = Except.ok out.resistance_band_upper := by
  unfold prepare_chart_data at hok
  cases h1 : bandSeries pyMin Row.Support supportColor rows with
  | error e => rw [h1] at hok; cases hok
  | ok sb =>
    rw [h1] at hok
    cases h2 : bandSeries pyMax Row.Support supportColor rows with
    | error e => rw [h2] at hok; cases hok
    | ok sbu =>
      rw [h2] at hok
      cases h3 : bandSeries pyMin Row.Resistance resistColor rows with
      | error e => rw [h3] at hok; cases hok
      | ok rb =>
        rw [h3] at hok
        cases h4 : bandSeries pyMax Row.Resistance resistColor rows with
        | error e => rw [h4] at hok; cases hok
        | ok rbu =>
          rw [h4] at hok
          injection hok with hok
          rw [← hok]
          exact ⟨rfl, rfl, rfl, rfl, rfl, rfl⟩

theorem bands_null_of_falsy {red : PyVal → Except String ℚ}
    {proj : Row → PyVal} {color : String} {rows : List Row}
    {sb : List BandPoint} {i : Nat} {r : Row}
    (hs : bandSeries red proj color rows = Except.ok sb)
    (hr : rows[i]? = some r) (hf : pyTruthy (proj r) = false) :
    Option.map BandPoint.value sb[i]? = some none ∧
      Option.map BandPoint.time sb[i]? = some r.timestamp := by
  obtain ⟨p, hp, hfp⟩ := mapExcept_ok_getElem? i hs hr
  have hinv := bandPointOf_ok hfp
  have hval : bandValue red (proj r) = Except.ok p.value := hinv.2.2
  rw [bandValue_falsy hf] at hval
  injection hval with hval
  rw [hp]
  exact ⟨congrArg some hval.symm, congrArg some hinv.1⟩

theorem direq_true_iff {c : Cell} {s : String} :
    direq c s = true ↔ c = Cell.str s := by
  cases c with
  | null => simp [direq]
  | str t => simp [direq]

theorem markerOf_time (r : Row) : (markerOf r).time = r.timestamp := by
  unfold markerOf
  by_cases h1 : direq r.direction "LONG" = true
  · simp [h1]
  · by_cases h2 : direq r.direction "SHORT" = true
    · simp [h1, h2]
    · simp [h1, h2]

theorem map_time_candleOf :
    ∀ rows : List Row,
      (rows.map candleOf).map Candle.time = rows.map Row.timestamp := by
  intro rows
  induction rows with
  | nil => rfl
  | cons r rs ih => simp [candleOf, ih]

theorem map_time_markerOf :
    ∀ rows : List Row,
      (rows.map markerOf).map Marker.time = rows.map Row.timestamp := by
  intro rows
  induction rows with
  | nil => rfl
  | cons r rs ih => simp [markerOf_time r, ih]

theorem exceptOk_bandValue {red : PyVal → Except String ℚ} {v : PyVal}
    (h : exceptOk (red v) = true) : exceptOk (bandValue red v) = true := by
  unfold bandValue
  by_cases ht : pyTruthy v
  · rw [if_pos ht]
    obtain ⟨q, hq⟩ := exceptOk_iff_ok.mp h
    rw [hq]
    rfl
  · rw [if_neg ht]
    rfl

theorem pyMinMax_ok_of_toNums {xs : List PyVal} {l : List ℚ}
    (h : toNums xs = some l) (hne : xs ≠ []) :
    exceptOk (pyMin (PyVal.list xs)) = true ∧
      exceptOk (pyMax (PyVal.list xs)) = true := by
  cases xs with
  | nil => exact absurd rfl hne
  | cons y ys =>
    cases y with
    | num q =>
      cases hrest : toNums ys with
      | none => rw [toNums, hrest] at h; cases h
      | some l2 =>
        constructor
        · simp [pyMin, toNums, hrest, exceptOk]
        · simp [pyMax, toNums, hrest, exceptOk]
    | pynone => exact Option.noConfusion h
    | bool c => exact Option.noConfusion h
    | str s => exact Option.noConfusion h
    | list zs => exact Option.noConfusion h

theorem pyReducers_ok_of_safe {v : PyVal} (hsafe : bandSafe v = true)
    (ht : pyTruthy v = true) :
    exceptOk (pyMin v) = true ∧ exceptOk (pyMax v) = true := by
  unfold bandSafe at hsafe
  rw [ht] at hsafe
  simp only [Bool.not_true, Bool.false_or] at hsafe
  cases v with
  | list xs =>
    obtain ⟨l, hl⟩ := Option.isSome_iff_exists.mp hsafe
    have hne : xs ≠ [] := by
      intro hx
      subst hx
      simp [pyTruthy] at ht
    exact pyMinMax_ok_of_toNums hl hne
  | pynone => cases hsafe
  | bool c => cases hsafe
  | num q => cases hsafe
  | str s => cases hsafe

theorem bandValue_safe_ok {v : PyVal} (hsafe : bandSafe v = true) :
    exceptOk (bandValue pyMin v) = true ∧
      exceptOk (bandValue pyMax v) = true := by
  by_cases ht : pyTruthy v
  · obtain ⟨h1, h2⟩ := pyReducers_ok_of_safe hsafe ht
    exact ⟨exceptOk_bandValue h1, exceptOk_bandValue h2⟩
  · have hf : pyTruthy v = false := by simpa using ht
    exact ⟨by rw [bandValue_falsy hf]; rfl, by rw [bandValue_falsy hf]; rfl⟩

theorem bandSeries_ok_of_all {red : PyVal → Except String ℚ}
    {proj : Row → PyVal} {color : String} {rows : List Row}
    (hall : ∀ r ∈ rows, exceptOk (bandValue red (proj r)) = true) :
    exceptOk (bandSeries red proj color rows) = true :=
  mapExcept_ok_of_all_ok (fun a ha => by
    rw [exceptOk_bandPointOf]
    exact hall a ha)

theorem prepare_ok_of_bands {rows : List Row}
    (h1 : exceptOk (bandSeries pyMin Row.Support supportColor rows) = true)
    (h2 : exceptOk (bandSeries pyMax Row.Support supportColor rows) = true)
    (h3 : exceptOk (bandSeries pyMin Row.Resistance resistColor rows) = true)
    (h4 : exceptOk (bandSeries pyMax Row.Resistance resistColor rows) = true) :
    exceptOk (prepare_chart_data rows) = true := by
  obtain ⟨sb, hsb⟩ := exceptOk_iff_ok.mp h1
  obtain ⟨sbu, hsbu⟩ := exceptOk_iff_ok.mp h2
  obtain ⟨rb, hrb⟩ := exceptOk_iff_ok.mp h3
  obtain ⟨rbu, hrbu⟩ := exceptOk_iff_ok.mp h4
  unfold prepare_chart_data
  rw [hsb, hsbu, hrb, hrbu]
  rfl

/-- Sample row in the shape of the spec's scenario: direction LONG,
Support [90, 95], Resistance [110, 115]. -/
def rowLong : Row :=
  ⟨"2024-01-01", 100, 110, 90, 105, 1000, Cell.str "LONG",
    PyVal.list [PyVal.num 90, PyVal.num 95],
    PyVal.list [PyVal.num 110, PyVal.num 115]⟩

/-- Sample row: direction SHORT, empty Support list. -/
def rowShort : Row :=
  ⟨"2024-01-02", 105, 112, 95, 98, 1100, Cell.str "SHORT",
    PyVal.list [], PyVal.list [PyVal.num 111]⟩

/-- Sample row: unrecognized direction, falsy non-list parsed levels
(the number 0 and None). -/
def rowHold : Row :=
  ⟨"2024-01-03", 98, 99, 91, 94, 900, Cell.str "HOLD",
    PyVal.num 0, PyVal.pynone⟩

/-- Sample row: empty-string direction, both level lists empty. -/
def rowFlat : Row :=
  ⟨"2024-01-04", 94, 96, 92, 95, 800, Cell.str "",
    PyVal.list [], PyVal.list []⟩

/-- A concrete parsed table exercising every marker branch and every
band case. -/
def sampleRows : List Row := [rowLong, rowShort, rowHold, rowFlat]

/-- The output of `prepare_chart_data` on `sampleRows`. -/
def sampleOut : ChartData :=
  ⟨[⟨"2024-01-01", 100, 110, 90, 105⟩, ⟨"2024-01-02", 105, 112, 95, 98⟩,
    ⟨"2024-01-03", 98, 99, 91, 94⟩, ⟨"2024-01-04", 94, 96, 92, 95⟩],
   [⟨"2024-01-01", "belowBar", "green", "arrowUp", "LONG"⟩,
    ⟨"2024-01-02", "aboveBar", "red", "arrowDown", "SHORT"⟩,
    ⟨"2024-01-03", "aboveBar", "yellow", "circle", "NONE"⟩,
    ⟨"2024-01-04", "aboveBar", "yellow", "circle", "NONE"⟩],
   [⟨"2024-01-01", some 90, supportColor⟩, ⟨"2024-01-02", none, supportColor⟩,
    ⟨"2024-01-03", none, supportColor⟩, ⟨"2024-01-04", none, supportColor⟩],
   [⟨"2024-01-01", some 95, supportColor⟩, ⟨"2024-01-02", none, supportColor⟩,
    ⟨"2024-01-03", none, supportColor⟩, ⟨"2024-01-04", none, supportColor⟩],
   [⟨"2024-01-01", some 110, resistColor⟩, ⟨"2024-01-02", some 111, resistColor⟩,
    ⟨"2024-01-03", none, resistColor⟩, ⟨"2024-01-04", none, resistColor⟩],
   [⟨"2024-01-01", some 115, resistColor⟩, ⟨"2024-01-02", some 111, resistColor⟩,
    ⟨"2024-01-03", none, resistColor⟩, ⟨"2024-01-04", none, resistColor⟩]⟩

/-- A raw row whose Support cell decodes to the bare number 5: Python's
`min` raises a `TypeError` on it. -/
def badRaw : RawRow :=
  ⟨"2024-01-01", 100, 110, 90, 105, 1000, Cell.str "LONG",
    Cell.str "5", Cell.str "[110]"⟩

/-- A raw table whose cells all decode to numeric lists or to falsy
values (0, a malformed cell, a missing cell). -/
def safeRaws : List RawRow :=
  [⟨"2024-01-01", 100, 110, 90, 105, 1000, Cell.str "LONG",
     Cell.str "[90, 95]", Cell.str "[110, 115]"⟩,
   ⟨"2024-01-02", 105, 112, 95, 98, 1100, Cell.null,
     Cell.str "0", Cell.str "oops"⟩,
   ⟨"2024-01-03", 98, 99, 91, 94, 900, Cell.str "SHORT",
     Cell.null, Cell.str ""⟩]

/-- Claim C1: for every parsed table on which the Series Builder
returns, all six sequences have the same length as the input row list,
and at every index each sequence's entry carries the timestamp of the
input row at that index — so no sorting, filtering or deduplication is
applied to any sequence. -/
theorem prepare_chart_data_six_aligned (rows : List Row) (out : ChartData)
    (hok : prepare_chart_data rows = Except.ok out) :
    out.candles.length = rows.length ∧
    out.markers.length = rows.length ∧
    out.support_band.length = rows.length ∧
    out.support_band_upper.length = rows.length ∧
    out.resistance_band.length = rows.length ∧
    out.resistance_band_upper.length = rows.length ∧
    out.candles.map Candle.time = rows.map Row.timestamp ∧
    out.markers.map Marker.time = rows.map Row.timestamp ∧
    out.support_band.map BandPoint.time = rows.map Row.timestamp ∧
    out.support_band_upper.map BandPoint.time = rows.map Row.timestamp ∧
    out.resistance_band.map BandPoint.time = rows.map Row.timestamp ∧
    out.resistance_band_upper.map BandPoint.time = rows.map Row.timestamp := by
  obtain ⟨hc, hm, hsb, hsbu, hrb, hrbu⟩ := prepare_chart_data_ok_parts hok
  refine ⟨?_, ?_, ?_, ?_, ?_, ?_, ?_, ?_, ?_, ?_, ?_, ?_⟩
  · rw [hc]; simp
  · rw [hm]; simp
  · exact mapExcept_ok_length hsb
  · exact mapExcept_ok_length hsbu
  · exact mapExcept_ok_length hrb
  · exact mapExcept_ok_length hrbu
  · rw [hc]; exact map_time_candleOf rows
  · rw [hm]; exact map_time_markerOf rows
  · exact mapExcept_ok_map (fun a b hb => (bandPointOf_ok hb).1) hsb
  · exact mapExcept_ok_map (fun a b hb => (bandPointOf_ok hb).1) hsbu
  · exact mapExcept_ok_map (fun a b hb => (bandPointOf_ok hb).1) hrb
  · exact mapExcept_ok_map (fun a b hb => (bandPointOf_ok hb).1) hrbu

theorem prepare_chart_data_six_aligned_witness :
    sampleOut.candles.length = sampleRows.length ∧
    sampleOut.support_band.map BandPoint.time = sampleRows.map Row.timestamp :=
  ⟨(prepare_chart_data_six_aligned sampleRows sampleOut rfl).1,
   (prepare_chart_data_six_aligned sampleRows sampleOut rfl).2.2.2.2.2.2.2.2.1⟩

/-- Claim C2: the direction-to-marker classification is total and
case-sensitive. A direction cell equal to exactly `"LONG"` yields a
below-bar green up-arrow marker labeled LONG; exactly `"SHORT"` yields
an above-bar red down-arrow marker labeled SHORT; every other cell —
missing (NaN), empty, lowercase, or unrecognized like `"HOLD"` — yields
an above-bar yellow circle marker labeled NONE. The marker sequence of
the builder is exactly the per-row classification. -/
theorem marker_classification_total :
    (∀ (rows : List Row) (out : ChartData),
      prepare_chart_data rows = Except.ok out →
        out.markers = rows.map markerOf) ∧
    ∀ r : Row,
      (r.direction = Cell.str "LONG" →
        markerOf r = Marker.mk r.timestamp "belowBar" "green" "arrowUp" "LONG") ∧
      (r.direction = Cell.str "SHORT" →
        markerOf r = Marker.mk r.timestamp "aboveBar" "red" "arrowDown" "SHORT") ∧
      (r.direction ≠ Cell.str "LONG" → r.direction ≠ Cell.str "SHORT" →
        markerOf r = Marker.mk r.timestamp "aboveBar" "yellow" "circle" "NONE") := by
  constructor
  · intro rows out hok
    exact (prepare_chart_data_ok_parts hok).2.1
  · intro r
    refine ⟨?_, ?_, ?_⟩
    · intro h
      have h1 : direq r.direction "LONG" = true := direq_true_iff.mpr h
      simp [markerOf, h1]
    · intro h
      have h1 : direq r.direction "LONG" = false := by rw [h]; rfl
      have h2 : direq r.direction "SHORT" = true := direq_true_iff.mpr h
      simp [markerOf, h1, h2]
    · intro hL hS
      have h1 : direq r.direction "LONG" = false := by
        cases hd : direq r.direction "LONG" with
        | false => rfl
        | true => exact absurd (direq_true_iff.mp hd) hL
      have h2 : direq r.direction "SHORT" = false := by
        cases hd : direq r.direction "SHORT" with
        | false => rfl
        | true => exact absurd (direq_true_iff.mp hd) hS
      simp [markerOf, h1, h2]

theorem marker_classification_total_witness :
    markerOf rowLong = Marker.mk "2024-01-01" "belowBar" "green" "arrowUp" "LONG" ∧
    markerOf rowShort = Marker.mk "2024-01-02" "aboveBar" "red" "arrowDown" "SHORT" ∧
    markerOf rowHold = Marker.mk "2024-01-03" "aboveBar" "yellow" "circle" "NONE" ∧
    sampleOut.markers = sampleRows.map markerOf :=
  ⟨(marker_classification_total.2 rowLong).1 rfl,
   (marker_classification_total.2 rowShort).2.1 rfl,
   (marker_classification_total.2 rowHold).2.2 (by decide) (by decide),
   marker_classification_total.1 sampleRows sampleOut rfl⟩

/-- Claim C3: the cell parser never raises. A missing cell, an empty
string, or a string on which decoding fails all yield the empty list; a
string the decoder accepts is returned as decoded — in particular the
round trip of the spec, `"[100, 102.5]"` to the list `[100, 102.5]`.
Totality (no exception reaches the caller) is the totality of
`parse_list` itself. -/
theorem parse_list_decode_or_empty :
    parse_list Cell.null = PyVal.list [] ∧
    parse_list (Cell.str "") = PyVal.list [] ∧
    (∀ (s : String) (v : PyVal),
      literal_eval s = some v → parse_list (Cell.str s) = v) ∧
    (∀ s : String,
      literal_eval s = none → parse_list (Cell.str s) = PyVal.list []) ∧
    parse_list (Cell.str "[100, 102.5]") =
      PyVal.list [PyVal.num 100, PyVal.num 102.5] := by
  refine ⟨rfl, rfl, ?_, ?_, ?_⟩
  · intro s v h
    by_cases hs : s = ""
    · subst hs
      rw [show literal_eval "" = none from rfl] at h
      cases h
    · simp [parse_list, hs, h]
  · intro s h
    by_cases hs : s = ""
    · subst hs
      rfl
    · simp [parse_list, hs, h]
  · have hq : (102.5 : ℚ) = mkRat 1025 10 := by norm_num [Rat.mkRat_eq_div]
    rw [hq]
    rfl

theorem parse_list_decode_or_empty_witness :
    parse_list (Cell.str "[90, 95]") = PyVal.list [PyVal.num 90, PyVal.num 95] ∧
    parse_list (Cell.str "not a list") = PyVal.list [] :=
  ⟨parse_list_decode_or_empty.2.2.1 "[90, 95]"
      (PyVal.list [PyVal.num 90, PyVal.num 95]) rfl,
   parse_list_decode_or_empty.2.2.2.1 "not a list" rfl⟩

/-- Claim C4: a row whose Support list is empty still contributes a
point to both support sequences at that row's timestamp, and the
point's value is absent (None), not zero; likewise for an empty
Resistance list and the two resistance sequences. -/
theorem empty_levels_give_null_points (rows : List Row) (out : ChartData)
    (hok : prepare_chart_data rows = Except.ok out) (i : Nat) (r : Row)
    (hr : rows[i]? = some r) :
    (r.Support = PyVal.list [] →
      Option.map BandPoint.value out.support_band[i]? = some none ∧
      Option.map BandPoint.time out.support_band[i]? = some r.timestamp ∧
      Option.map BandPoint.value out.support_band_upper[i]? = some none ∧
      Option.map BandPoint.time out.support_band_upper[i]? = some r.timestamp) ∧
    (r.Resistance = PyVal.list [] →
      Option.map BandPoint.value out.resistance_band[i]? = some none ∧
      Option.map BandPoint.time out.resistance_band[i]? = some r.timestamp ∧
      Option.map BandPoint.value out.resistance_band_upper[i]? = some none ∧
      Option.map BandPoint.time out.resistance_band_upper[i]? = some r.timestamp) := by
  obtain ⟨-, -, hsb, hsbu, hrb, hrbu⟩ := prepare_chart_data_ok_parts hok
  constructor
  · intro hS
    have hf : pyTruthy r.Support = false := by rw [hS]; rfl
    obtain ⟨v1, t1⟩ := bands_null_of_falsy hsb hr hf
    obtain ⟨v2, t2⟩ := bands_null_of_falsy hsbu hr hf
    exact ⟨v1, t1, v2, t2⟩
  · intro hR
    have hf : pyTruthy r.Resistance = false := by rw [hR]; rfl
    obtain ⟨v1, t1⟩ := bands_null_of_falsy hrb hr hf
    obtain ⟨v2, t2⟩ := bands_null_of_falsy hrbu hr hf
    exact ⟨v1, t1, v2, t2⟩

theorem empty_levels_give_null_points_witness :
    Option.map BandPoint.value sampleOut.support_band[3]? = some none ∧
    Option.map BandPoint.time sampleOut.resistance_band_upper[3]? =
      some "2024-01-04" :=
  ⟨((empty_levels_give_null_points sampleRows sampleOut rfl 3 rowFlat rfl).1
      rfl).1,
   (((empty_levels_give_null_points sampleRows sampleOut rfl 3 rowFlat rfl).2
      rfl).2).2.2⟩

/-- Claim C5, counterexample: a raw table whose Support cell is the
string `"5"` decodes to the bare number 5, which is truthy, so the
support band comprehension calls `min(5)` and raises a `TypeError` —
the composed transformation does not complete, contradicting the claim
that it is total with non-sequence decoded values treated as empty
lists. -/
theorem pipeline_raises_on_scalar_support :
    prepare_chart_data (load_data [badRaw]) = Except.error "TypeError" := rfl

/-- Claim C5, amended: the composed transformation completes and
returns the six sequences for every raw table whose Support and
Resistance cells each parse to a value that is either falsy (empty or
malformed or missing cells, `0`, `None`, ...) or a list of numbers; it
is not total in general, since a cell decoding to a truthy non-list
value (e.g. a bare number) makes a band's `min`/`max` call raise. -/
theorem pipeline_total_on_safe_tables (rows : List RawRow)
    (hsafe : ∀ r ∈ rows, bandSafe (parse_list r.Support) = true ∧
      bandSafe (parse_list r.Resistance) = true) :
    exceptOk (prepare_chart_data (load_data rows)) = true := by
  have hs : ∀ r ∈ load_data rows,
      bandSafe r.Support = true ∧ bandSafe r.Resistance = true := by
    intro r hr
    obtain ⟨r0, hr0, hpr⟩ := List.mem_map.mp hr
    rw [← hpr]
    exact ⟨(hsafe r0 hr0).1, (hsafe r0 hr0).2⟩
  apply prepare_ok_of_bands
  · exact bandSeries_ok_of_all (fun r hr => (bandValue_safe_ok (hs r hr).1).1)
  · exact bandSeries_ok_of_all (fun r hr => (bandValue_safe_ok (hs r hr).1).2)
  · exact bandSeries_ok_of_all (fun r hr => (bandValue_safe_ok (hs r hr).2).1)
  · exact bandSeries_ok_of_all (fun r hr => (bandValue_safe_ok (hs r hr).2).2)

theorem pipeline_total_on_safe_tables_witness :
    exceptOk (prepare_chart_data (load_data safeRaws)) = true :=
  pipeline_total_on_safe_tables safeRaws (by decide)

/-- Claim C6: with the credential absent from both the secrets store
and the environment, `gemini_chat` returns exactly the literal fallback
string, for every question and every table; the result is the
`fallback` constructor, not `modelCall`, so no call is made to the
language-model collaborator, and nothing is raised. -/
theorem missing_key_fallback_no_call (question : String) (df : List Row) :
    gemini_chat none none question df =
      Except.ok (ChatResult.fallback
        "Gemini API key not found. Please set it in Streamlit secrets or as an environment variable.") :=
  rfl

/-- Claim C7: the candle mapping is a direct total projection — on
every table the builder accepts, the candle sequence is exactly the
per-row (timestamp, open, high, low, close) tuple list, one candle per
row, in input order. -/
theorem candles_direct_projection (rows : List Row) (out : ChartData)
    (hok : prepare_chart_data rows = Except.ok out) :
    out.candles =
      rows.map (fun r => Candle.mk r.timestamp r.open_ r.high r.low r.close) :=
  (prepare_chart_data_ok_parts hok).1

theorem candles_direct_projection_witness :
    sampleOut.candles =
      sampleRows.map (fun r => Candle.mk r.timestamp r.open_ r.high r.low r.close) :=
  candles_direct_projection sampleRows sampleOut rfl

/-- Claim C8: at every index where both the lower and the upper band
value are present, lower ≤ upper, for the support pair and for the
resistance pair — both are the min and max of the same level list. -/
theorem band_lower_le_upper (rows : List Row) (out : ChartData)
    (hok : prepare_chart_data rows = Except.ok out) (i : Nat) :
    (∀ (p q : BandPoint) (a b : ℚ),
      out.support_band[i]? = some p → out.support_band_upper[i]? = some q →
      p.value = some a → q.value = some b → a ≤ b) ∧
    (∀ (p q : BandPoint) (a b : ℚ),
      out.resistance_band[i]? = some p → out.resistance_band_upper[i]? = some q →
      p.value = some a → q.value = some b → a ≤ b) := by
  obtain ⟨-, -, hsb, hsbu, hrb, hrbu⟩ := prepare_chart_data_ok_parts hok
  constructor
  · intro p q a b hp hq hpv hqv
    obtain ⟨r1, hr1, hf1⟩ := mapExcept_ok_getElem?_src i hsb hp
    obtain ⟨r2, hr2, hf2⟩ := mapExcept_ok_getElem?_src i hsbu hq
    rw [hr1] at hr2
    injection hr2 with hr2
    subst hr2
    have h1 := (bandPointOf_ok hf1).2.2
    have h2 := (bandPointOf_ok hf2).2.2
    rw [hpv] at h1
    rw [hqv] at h2
    exact pyMin_le_pyMax (bandValue_ok_some h1).2 (bandValue_ok_some h2).2
  · intro p q a b hp hq hpv hqv
    obtain ⟨r1, hr1, hf1⟩ := mapExcept_ok_getElem?_src i hrb hp
    obtain ⟨r2, hr2, hf2⟩ := mapExcept_ok_getElem?_src i hrbu hq
    rw [hr1] at hr2
    injection hr2 with hr2
    subst hr2
    have h1 := (bandPointOf_ok hf1).2.2
    have h2 := (bandPointOf_ok hf2).2.2
    rw [hpv] at h1
    rw [hqv] at h2
    exact pyMin_le_pyMax (bandValue_ok_some h1).2 (bandValue_ok_some h2).2

theorem band_lower_le_upper_witness : (90 : ℚ) ≤ 95 ∧ (110 : ℚ) ≤ 115 :=
  ⟨(band_lower_le_upper sampleRows sampleOut rfl 0).1
      ⟨"2024-01-01", some 90, supportColor⟩ ⟨"2024-01-01", some 95, supportColor⟩
      90 95 rfl rfl rfl rfl,
   (band_lower_le_upper sampleRows sampleOut rfl 0).2
      ⟨"2024-01-01", some 110, resistColor⟩ ⟨"2024-01-01", some 115, resistColor⟩
      110 115 rfl rfl rfl rfl⟩

/-- Claim C9: a row whose parsed Support value is falsy but not a list
(the number 0, None, the empty string) produces absent band values at
that row's timestamp exactly as an empty list does, because the
builder's emptiness check is Python truthiness of the parsed value;
likewise for Resistance. -/
theorem falsy_levels_give_null_points (rows : List Row) (out : ChartData)
    (hok : prepare_chart_data rows = Except.ok out) (i : Nat) (r : Row)
    (hr : rows[i]? = some r) :
    (pyTruthy r.Support = false →
      Option.map BandPoint.value out.support_band[i]? = some none ∧
      Option.map BandPoint.time out.support_band[i]? = some r.timestamp ∧
      Option.map BandPoint.value out.support_band_upper[i]? = some none ∧
      Option.map BandPoint.time out.support_band_upper[i]? = some r.timestamp) ∧
    (pyTruthy r.Resistance = false →
      Option.map BandPoint.value out.resistance_band[i]? = some none ∧
      Option.map BandPoint.time out.resistance_band[i]? = some r.timestamp ∧
      Option.map BandPoint.value out.resistance_band_upper[i]? = some none ∧
      Option.map BandPoint.time out.resistance_band_upper[i]? = some r.timestamp) := by
  obtain ⟨-, -, hsb, hsbu, hrb, hrbu⟩ := prepare_chart_data_ok_parts hok
  constructor
  · intro hf
    obtain ⟨v1, t1⟩ := bands_null_of_falsy hsb hr hf
    obtain ⟨v2, t2⟩ := bands_null_of_falsy hsbu hr hf
    exact ⟨v1, t1, v2, t2⟩
  · intro hf
    obtain ⟨v1, t1⟩ := bands_null_of_falsy hrb hr hf
    obtain ⟨v2, t2⟩ := bands_null_of_falsy hrbu hr hf
    exact ⟨v1, t1, v2, t2⟩

theorem falsy_levels_give_null_points_witness :
    Option.map BandPoint.value sampleOut.support_band[2]? = some none ∧
    Option.map BandPoint.value sampleOut.resistance_band[2]? = some none :=
  ⟨((falsy_levels_give_null_points sampleRows sampleOut rfl 2 rowHold rfl).1
      rfl).1,
   ((falsy_levels_give_null_points sampleRows sampleOut rfl 2 rowHold rfl).2
      rfl).1⟩

/-- Claim C10: with a truthy credential present, `gemini_chat`
unconditionally reads the first row of the table to build the prompt:
on an empty table it raises an out-of-bounds `IndexError` instead of
returning an answer, and on a nonempty table it calls the model with
the head row — so non-emptiness of the table is a precondition for the
chat path not to raise. -/
theorem chat_requires_nonempty_table (k : String) (hk : k ≠ "")
    (env : Option String) (question : String) :
    gemini_chat (some k) env question [] = Except.error "IndexError" ∧
    ∀ (r : Row) (rest : List Row),
      gemini_chat (some k) env question (r :: rest) =
        Except.ok (ChatResult.modelCall r question) := by
  have hkt : keyTruthy (some k) = true := by simp [keyTruthy, hk]
  constructor
  · simp [gemini_chat, hkt]
  · intro r rest
    simp [gemini_chat, hkt]

theorem chat_requires_nonempty_table_witness :
    gemini_chat (some "key") none "q" [] = Except.error "IndexError" ∧
    gemini_chat (some "key") none "q" sampleRows =
      Except.ok (ChatResult.modelCall rowLong "q") :=
  ⟨(chat_requires_nonempty_table "key" (by decide) none "q").1,
   (chat_requires_nonempty_table "key" (by decide) none "q").2
      rowLong [rowShort, rowHold, rowFlat]⟩
